import Mathlib

/-
Verification of the watch-coordination core of addshore/jaguar
(cmd/jag/commands/watch.go) against its design specification.

The Go code is shallowly embedded: maps with struct{} values become lists
with set semantics (insertion only when absent), external collaborators
(filepath.EvalSymlinks, filepath.Dir, os.Stat, the fsnotify Add/Remove
primitives, the analyzer process) become function parameters, and the
side effects of each function (OS watch registrations, printed messages,
calls into Watch) are returned explicitly as action lists.
-/

namespace Jaguar

/-- Insert a key into a list used with set semantics: models the Go map
assignment m[k] = struct.  The key is appended only when absent, so the
list stays duplicate-free when it started duplicate-free. -/
def listInsert (x : String) (l : List String) : List String :=
  if x ∈ l then l else l ++ [x]

/-- Model of Go path/filepath.Dir for cleaned, slash-separated relative
paths (the only shape that appears in the scenarios): everything up to the
last separator, or "." when the path has no separator.  Written by
structural recursion over the character list so concrete inputs evaluate
inside the kernel. -/
def filepathDir (p : String) : String :=
  match p.data.reverse.dropWhile (fun c => c ≠ '/') with
  | [] => "."
  | _ :: rest => ⟨rest.reverse⟩

/-- State of the watcher struct from watch.go: the dirs and paths maps.
Go's newWatcher initializes only paths; dirs is left as the nil map,
which reads as empty. -/
structure Watcher where
  dirs : List String
  paths : List String
deriving Repr, DecidableEq

/-- Watcher state produced by newWatcher: paths is the fresh empty map and
dirs is the nil (empty-reading) map. -/
def newWatcherState : Watcher := { dirs := [], paths := [] }

/-- CountPaths from watch.go: the number of currently relevant paths. -/
def Watcher.CountPaths (w : Watcher) : Nat := w.paths.length

/-- Calls made to the fsnotify primitive by Watch: directory registration
(Add) and unregistration (Remove). -/
inductive OSAction where
  | add (dir : String)
  | remove (dir : String)
deriving Repr, DecidableEq

/-- Outcome of one Watch call: the watcher state at return, the Add/Remove
calls issued to the OS primitive in order, and the returned error. -/
structure WatchResult where
  w : Watcher
  osActs : List OSAction
  err : Option String
deriving Repr, DecidableEq

/-- Symlink-resolution loop at the top of Watch: resolves each input path
in order with filepath.EvalSymlinks, returning the first error if any. -/
def resolveAll (resolve : String → Except String String) :
    List String → Except String (List String)
  | [] => .ok []
  | p :: rest =>
    match resolve p with
    | .error e => .error e
    | .ok r =>
      match resolveAll resolve rest with
      | .error e => .error e
      | .ok rs => .ok (r :: rs)

/-- First loop of Watch: for each resolved path p, insert p into w.paths,
call the OS Add for dir(p) whenever dir(p) is not in w.dirs (the returned
error is discarded, exactly as in the Go statement w.watcher.Add(dir)),
and record dir(p) and p in the candidate sets.  Note the loop never
inserts anything into w.dirs, mirroring the source. -/
def watchAddLoop (dirOf : String → String) (osAdd : String → Option String) :
    List String → Watcher → List String → List String → List OSAction →
    Watcher × List String × List String × List OSAction
  | [], w, candDirs, cands, acts => (w, candDirs, cands, acts)
  | p :: rest, w, candDirs, cands, acts =>
    let d := dirOf p
    let w' : Watcher := { w with paths := listInsert p w.paths }
    let acts' := if d ∈ w.dirs then acts else
      let _ignored := osAdd d
      acts ++ [OSAction.add d]
    watchAddLoop dirOf osAdd rest w' (listInsert d candDirs) (listInsert p cands) acts'

/-- Watch from watch.go.  Resolves symlinks first (returning on the first
failure with nothing mutated), then runs the add loop, then the two
cleanup loops: paths not in candidates are deleted, and dirs not in
candidateDirs are deleted with an OS Remove (whose error is likewise
discarded).  Go iterates the cleanup maps in unspecified order; the
embedding uses list order, which is immaterial because deletions commute
and the assertions below are about set contents. -/
def watcherWatch (resolve : String → Except String String)
    (dirOf : String → String)
    (osAdd osRemove : String → Option String)
    (w : Watcher) (paths : List String) : WatchResult :=
  match resolveAll resolve paths with
  | .error e => { w := w, osActs := [], err := some e }
  | .ok rs =>
    let (w1, candDirs, cands, acts) := watchAddLoop dirOf osAdd rs w [] [] []
    let removedDirs := w1.dirs.filter (fun d => decide (d ∉ candDirs))
    let _ignored := removedDirs.map osRemove
    { w := { dirs := w1.dirs.filter (fun d => decide (d ∈ candDirs)),
             paths := w1.paths.filter (fun p => decide (p ∈ cands)) },
      osActs := acts ++ removedDirs.map OSAction.remove,
      err := none }

/-- Model of Go strings.TrimSpace (restricted to ASCII whitespace, the
only kind the scenarios use): drop whitespace from both ends. -/
def trimSpace (s : String) : String :=
  ⟨((s.data.dropWhile Char.isWhitespace).reverse.dropWhile Char.isWhitespace).reverse⟩

/-- Model of Go strings.TrimSuffix with the one-character suffix ":". -/
def trimSuffixColon (s : String) : String :=
  match s.data.reverse with
  | [] => s
  | c :: rest => if c = ':' then ⟨rest.reverse⟩ else s

/-- Per-line normalization in parseDependeniesToDirs: strings.TrimSpace
followed by strings.TrimSuffix with suffix ":". -/
def trimLine (s : String) : String :=
  trimSuffixColon (trimSpace s)

/-- Scanner loop of parseDependeniesToDirs: m is the accumulated map,
the second argument the remaining lines of the report as produced by
bufio.Scanner. Each line is normalized and kept only when os.Stat
(abstracted as statExists) succeeds on it. -/
def parseLinesLoop (statExists : String → Bool) :
    List String → List String → List String
  | m, [] => m
  | m, line :: rest =>
    let p := trimLine line
    parseLinesLoop statExists (if statExists p then listInsert p m else m) rest

/-- parseDependeniesToDirs from watch.go, the byte input given as its
scanner lines.  Go ranges over the final map in unspecified order; the
embedding returns insertion order, immaterial for the set-level claims. -/
def parseDependeniesToDirs (statExists : String → Bool)
    (lines : List String) : List String :=
  parseLinesLoop statExists [] lines

theorem mem_listInsert (y x : String) (l : List String) :
    y ∈ listInsert x l ↔ y = x ∨ y ∈ l := by
  unfold listInsert
  by_cases h : x ∈ l
  · rw [if_pos h]
    constructor
    · exact Or.inr
    · rintro (rfl | hy)
      · exact h
      · exact hy
  · rw [if_neg h]
    simp [List.mem_append, or_comm]

theorem nodup_listInsert (x : String) (l : List String) (h : l.Nodup) :
    (listInsert x l).Nodup := by
  unfold listInsert
  by_cases hx : x ∈ l <;> simp [hx, List.nodup_append, h]

theorem parseLinesLoop_mem (statExists : String → Bool) (ls : List String)
    (m : List String) (p : String) :
    p ∈ parseLinesLoop statExists m ls ↔
      p ∈ m ∨ (statExists p = true ∧ ∃ l ∈ ls, trimLine l = p) := by
  induction ls generalizing m with
  | nil => simp [parseLinesLoop]
  | cons line rest ih =>
    simp only [parseLinesLoop]
    rw [ih]
    by_cases hs : statExists (trimLine line) = true
    · simp only [hs, if_pos]
      rw [mem_listInsert]
      constructor
      · rintro ((rfl | hm) | hex)
        · exact Or.inr ⟨hs, line, List.mem_cons_self _ _, rfl⟩
        · exact Or.inl hm
        · exact Or.inr ⟨hex.1, hex.2.imp fun l hl => ⟨List.mem_cons_of_mem _ hl.1, hl.2⟩⟩
      · rintro (hm | ⟨hp, l, hl, hpl⟩)
        · exact Or.inl (Or.inr hm)
        · rcases List.mem_cons.mp hl with rfl | hl
          · exact Or.inl (Or.inl hpl.symm)
          · exact Or.inr ⟨hp, l, hl, hpl⟩
    · simp only [hs, if_neg, Bool.false_eq_true, if_false]
      constructor
      · rintro (hm | hex)
        · exact Or.inl hm
        · exact Or.inr ⟨hex.1, hex.2.imp fun l hl => ⟨List.mem_cons_of_mem _ hl.1, hl.2⟩⟩
      · rintro (hm | ⟨hp, l, hl, hpl⟩)
        · exact Or.inl hm
        · rcases List.mem_cons.mp hl with rfl | hl
          · exact absurd (hpl ▸ hp) hs
          · exact Or.inr ⟨hp, l, hl, hpl⟩

theorem parseLinesLoop_nodup (statExists : String → Bool) (ls : List String)
    (m : List String) (h : m.Nodup) :
    (parseLinesLoop statExists m ls).Nodup := by
  induction ls generalizing m with
  | nil => exact h
  | cons line rest ih =>
    simp only [parseLinesLoop]
    by_cases hs : statExists (trimLine line) = true
    · simp only [hs, if_pos]
      exact ih _ (nodup_listInsert _ _ h)
    · simp only [hs, Bool.false_eq_true, if_false]
      exact ih _ h

/-- C6: parseDependeniesToDirs normalizes each scanner line (surrounding
whitespace and a trailing colon stripped), keeps exactly the lines whose
normalized path exists on the filesystem, and returns them without
duplicates; on the report lines lib/a.toit: and lib/b.toit with both
files existing it returns exactly those two paths. -/
theorem parse_dependencies_spec (statExists : String → Bool) (lines : List String) :
    (parseDependeniesToDirs statExists lines).Nodup ∧
    (∀ p, p ∈ parseDependeniesToDirs statExists lines ↔
      statExists p = true ∧ ∃ l ∈ lines, trimLine l = p) ∧
    parseDependeniesToDirs (fun p => p == "lib/a.toit" || p == "lib/b.toit")
        ["lib/a.toit:", "lib/b.toit"] = ["lib/a.toit", "lib/b.toit"] := by
  refine ⟨parseLinesLoop_nodup _ _ _ List.nodup_nil, fun p => ?_, rfl⟩
  rw [parseDependeniesToDirs, parseLinesLoop_mem]
  simp

/-- C1 (evaluation at the failing input): after Watch on the two paths
lib/a.toit and lib/b.toit, the dirs set is empty rather than the
singleton lib — the source never inserts into w.dirs — the OS Add for
lib is issued twice in that single call, and a later Watch that makes
lib irrelevant issues no OS Remove, so the registration stays. -/
theorem watch_dirs_invariant_violated :
    (watcherWatch Except.ok filepathDir (fun _ => none) (fun _ => none)
        newWatcherState ["lib/a.toit", "lib/b.toit"]).w.dirs = [] ∧
    (watcherWatch Except.ok filepathDir (fun _ => none) (fun _ => none)
        newWatcherState ["lib/a.toit", "lib/b.toit"]).osActs
      = [OSAction.add "lib", OSAction.add "lib"] ∧
    (watcherWatch Except.ok filepathDir (fun _ => none) (fun _ => none)
        { dirs := [], paths := ["lib/a.toit"] } ["other/b.toit"]).osActs
      = [OSAction.add "other"] :=
  ⟨rfl, rfl, rfl⟩

/-- C5 (evaluation at the failing input): a second Watch with the same
singleton path set reproduces the same watcher state, but re-issues the
OS Add for the directory lib because w.dirs is never populated. -/
theorem watch_not_idempotent_on_os_adds :
    (watcherWatch Except.ok filepathDir (fun _ => none) (fun _ => none)
        (watcherWatch Except.ok filepathDir (fun _ => none) (fun _ => none)
          newWatcherState ["lib/a.toit"]).w ["lib/a.toit"]).w
      = (watcherWatch Except.ok filepathDir (fun _ => none) (fun _ => none)
          newWatcherState ["lib/a.toit"]).w ∧
    (watcherWatch Except.ok filepathDir (fun _ => none) (fun _ => none)
        (watcherWatch Except.ok filepathDir (fun _ => none) (fun _ => none)
          newWatcherState ["lib/a.toit"]).w ["lib/a.toit"]).osActs
      = [OSAction.add "lib"] :=
  ⟨rfl, rfl⟩

/-- C10: when symlink resolution fails on any input path, Watch returns
that error with the watcher state unchanged and no OS registration or
unregistration performed: the resolution loop precedes all mutation. -/
theorem watch_atomic_on_resolve_error
    (resolve : String → Except String String) (dirOf : String → String)
    (osAdd osRemove : String → Option String) (w : Watcher)
    (paths : List String) (e : String)
    (h : resolveAll resolve paths = .error e) :
    watcherWatch resolve dirOf osAdd osRemove w paths
      = { w := w, osActs := [], err := some e } := by
  unfold watcherWatch
  rw [h]

theorem watch_atomic_on_resolve_error_witness :
    resolveAll (fun _ => Except.error "boom") ["a.toit"] = Except.error "boom" ∧
    watcherWatch (fun _ => Except.error "boom") filepathDir (fun _ => none)
        (fun _ => none) newWatcherState ["a.toit"]
      = { w := newWatcherState, osActs := [], err := some "boom" } :=
  ⟨rfl, watch_atomic_on_resolve_error _ _ _ _ _ _ _ rfl⟩

/-- Environment of one updateWatcher invocation: outcomes of the external
steps it performs, in source order.  runOk is whether the analyzer
process exits successfully when it is allowed to run to completion. -/
structure AnalyzeEnv where
  tmpOk : Bool
  runOk : Bool
  readOk : Bool
  reportLines : List String
  statExists : String → Bool
  resolve : String → Except String String
  dirOf : String → String
  osAdd : String → Option String
  osRemove : String → Option String

/-- Observable outcome of one updateWatcher invocation: the watcher state
afterwards, the OS registration calls, the printed messages, and the
argument lists of the Watch calls made. -/
structure UpdateResult where
  w : Watcher
  osActs : List OSAction
  printed : List String
  watchCalls : List (List String)
deriving Repr, DecidableEq

/-- updateWatcher from onWatchChanges.  outerCancelled models the
closure-captured command context ctx; runCtxCancelled models the runCtx
parameter.  The source starts the analyzer with sdk.ToitAnalyze(ctx, ...),
under the captured outer context, so whether the analyzer run is aborted
depends only on outerCancelled; the runCtx parameter is not consulted
anywhere in the body. -/
def updateWatcher (env : AnalyzeEnv) (outerCancelled runCtxCancelled : Bool)
    (w : Watcher) (entrypoint : String) : UpdateResult :=
  let analyzerRunOk := !outerCancelled && env.runOk
  if env.tmpOk && !analyzerRunOk && decide (0 < w.CountPaths) then
    { w := w, osActs := [], printed := [], watchCalls := [] }
  else
    let paths0 := if env.tmpOk && (analyzerRunOk && env.readOk) then
        parseDependeniesToDirs env.statExists env.reportLines
      else []
    let paths := if paths0.isEmpty then [env.dirOf entrypoint] else paths0
    let r := watcherWatch env.resolve env.dirOf env.osAdd env.osRemove w paths
    { w := r.w, osActs := r.osActs,
      printed := match r.err with
        | some e => ["Failed to update watcher: " ++ e]
        | none => [],
      watchCalls := [paths] }

/-- Environment in which the temp file, the analyzer run and the report
read all succeed and the report names the one existing file dep.toit. -/
def envSuccessfulAnalyze : AnalyzeEnv :=
  { tmpOk := true, runOk := true, readOk := true,
    reportLines := ["dep.toit"],
    statExists := fun p => p == "dep.toit",
    resolve := Except.ok, dirOf := filepathDir,
    osAdd := fun _ => none, osRemove := fun _ => none }

/-- Environment in which the temp file is created but the analyzer run
fails with a compilation error. -/
def envFailedAnalyze : AnalyzeEnv :=
  { tmpOk := true, runOk := false, readOk := true,
    reportLines := [],
    statExists := fun _ => false,
    resolve := Except.ok, dirOf := filepathDir,
    osAdd := fun _ => none, osRemove := fun _ => none }

/-- Watcher state already tracking one relevant path. -/
def watcherOnePath : Watcher := { dirs := [], paths := ["lib/a.toit"] }

/-- C2 (evaluation at the failing input): updateWatcher ignores its
runCtx argument entirely, and with the generation scope cancelled but the
process context alive, a successful analyzer run still applies the
cancelled generation's dependency result to the watch set. -/
theorem cancelled_generation_still_updates :
    (∀ env oc w e, updateWatcher env oc true w e = updateWatcher env oc false w e) ∧
    (updateWatcher envSuccessfulAnalyze false true newWatcherState "main.toit").w.paths
      = ["dep.toit"] :=
  ⟨fun _ _ _ _ => rfl, rfl⟩

theorem watchAddLoop_os_irrel (dirOf : String → String)
    (oa oa' : String → Option String) (ps : List String) (w : Watcher)
    (cd cs : List String) (acts : List OSAction) :
    watchAddLoop dirOf oa ps w cd cs acts = watchAddLoop dirOf oa' ps w cd cs acts := by
  induction ps generalizing w cd cs acts with
  | nil => rfl
  | cons p rest ih =>
    simp only [watchAddLoop]
    exact ih _ _ _ _

theorem watcherWatch_os_irrel (resolve : String → Except String String)
    (dirOf : String → String) (oa oa' or' or'' : String → Option String)
    (w : Watcher) (paths : List String) :
    watcherWatch resolve dirOf oa or' w paths
      = watcherWatch resolve dirOf oa' or'' w paths := by
  unfold watcherWatch
  cases resolveAll resolve paths with
  | error e => rfl
  | ok rs =>
    dsimp only
    rw [watchAddLoop_os_irrel dirOf oa oa']

/-- Helper: a Watch call on a single path whose resolution succeeds always
keeps the resolved path relevant afterwards. -/
theorem watch_singleton_mem (resolve : String → Except String String)
    (dirOf : String → String) (oa or' : String → Option String)
    (w : Watcher) (p d : String) (h : resolve p = .ok d) :
    d ∈ (watcherWatch resolve dirOf oa or' w [p]).w.paths := by
  have hres : resolveAll resolve [p] = .ok [d] := by
    simp only [resolveAll, h]
  have hnil : ∀ x : String, listInsert x [] = [x] := by
    intro x; simp [listInsert]
  unfold watcherWatch
  rw [hres]
  dsimp only
  simp only [watchAddLoop, hnil]
  rw [List.mem_filter]
  constructor
  · rw [mem_listInsert]
    exact Or.inl rfl
  · simp

/-- C4: when the analyzer invocation fails, updateWatcher leaves the
watch set fully unchanged (no Watch call, no OS call, no output) if some
paths are already watched; when none are, it calls Watch with exactly the
singleton fallback dirname(entrypoint), and if that path resolves the
resulting watch set is non-empty, so the loop never ends up watching
nothing. -/
theorem update_watcher_analyzer_failure (env : AnalyzeEnv) (rc : Bool)
    (w : Watcher) (e : String)
    (htmp : env.tmpOk = true) (hrun : env.runOk = false) :
    (0 < w.CountPaths →
      updateWatcher env false rc w e
        = { w := w, osActs := [], printed := [], watchCalls := [] }) ∧
    (w.CountPaths = 0 →
      (updateWatcher env false rc w e).watchCalls = [[env.dirOf e]] ∧
      ∀ d, env.resolve (env.dirOf e) = .ok d →
        0 < (updateWatcher env false rc w e).w.CountPaths) := by
  constructor
  · intro hpos
    unfold updateWatcher
    simp [htmp, hrun, hpos]
  · intro hzero
    have hcond : ¬ (0 < w.CountPaths) := by omega
    constructor
    · unfold updateWatcher
      simp [htmp, hrun, hcond]
    · intro d hd
      unfold updateWatcher
      simp only [htmp, hrun, Bool.not_false, Bool.and_false, Bool.and_true,
        Bool.false_and, Bool.not_true, Bool.true_and, hcond, decide_eq_true_eq,
        decide_False, Bool.false_eq_true, if_false, List.isEmpty_nil, if_true,
        if_pos, Bool.false_or]
      have hmem := watch_singleton_mem env.resolve env.dirOf env.osAdd env.osRemove
        w (env.dirOf e) d hd
      rcases List.exists_mem_of_ne_nil _ (List.ne_nil_of_mem hmem) with _
      simp only [Watcher.CountPaths]
      exact List.length_pos.mpr (List.ne_nil_of_mem hmem)

theorem update_watcher_analyzer_failure_witness :
    envFailedAnalyze.tmpOk = true ∧ envFailedAnalyze.runOk = false ∧
    0 < watcherOnePath.CountPaths ∧
    updateWatcher envFailedAnalyze false false watcherOnePath "main.toit"
      = { w := watcherOnePath, osActs := [], printed := [], watchCalls := [] } :=
  ⟨rfl, rfl, by decide,
    (update_watcher_analyzer_failure envFailedAnalyze false watcherOnePath
      "main.toit" rfl rfl).1 (by decide)⟩

/-- Environment like envSuccessfulAnalyze, but every OS registration and
unregistration call fails with a permission error. -/
def envFailingAdd : AnalyzeEnv :=
  { tmpOk := true, runOk := true, readOk := true,
    reportLines := ["dep.toit"],
    statExists := fun p => p == "dep.toit",
    resolve := Except.ok, dirOf := filepathDir,
    osAdd := fun _ => some "permission denied",
    osRemove := fun _ => some "permission denied" }

/-- C8 counterexample: with the OS Add and Remove calls failing with a
permission error, Watch still returns no error and updateWatcher prints
nothing at all: the registration error is silently dropped rather than
reported to the user, refuting the reported-to-the-user part of the
claim. -/
theorem registration_error_not_reported :
    (watcherWatch Except.ok filepathDir (fun _ => some "permission denied")
        (fun _ => some "permission denied") newWatcherState ["lib/a.toit"]).err
      = none ∧
    (updateWatcher envFailingAdd false false newWatcherState "main.toit").printed
      = [] :=
  ⟨rfl, rfl⟩

/-- C8 amended: errors from registering or unregistering a directory with
the OS watch primitive are handled best-effort and never abort the watch
loop, but they are silently discarded rather than reported: Watch and
updateWatcher behave identically to a run in which no registration error
occurs, and Watch returns no error whenever symlink resolution succeeds. -/
theorem registration_errors_best_effort (resolve : String → Except String String)
    (dirOf : String → String) (oa or' : String → Option String)
    (w : Watcher) (paths rs : List String)
    (env : AnalyzeEnv) (oc rc : Bool) (e : String)
    (h : resolveAll resolve paths = .ok rs) :
    watcherWatch resolve dirOf oa or' w paths
      = watcherWatch resolve dirOf (fun _ => none) (fun _ => none) w paths ∧
    (watcherWatch resolve dirOf oa or' w paths).err = none ∧
    updateWatcher env oc rc w e
      = updateWatcher
          { env with osAdd := fun _ => none, osRemove := fun _ => none }
          oc rc w e := by
  refine ⟨watcherWatch_os_irrel resolve dirOf oa _ or' _ w paths, ?_, ?_⟩
  · unfold watcherWatch
    rw [h]
  · unfold updateWatcher
    dsimp only
    by_cases hc : (env.tmpOk && !(!oc && env.runOk) && decide (0 < w.CountPaths)) = true
    · rw [if_pos hc, if_pos hc]
    · rw [if_neg hc, if_neg hc,
        watcherWatch_os_irrel env.resolve env.dirOf env.osAdd (fun _ => none)
          env.osRemove (fun _ => none)]

theorem registration_errors_best_effort_witness :
    resolveAll Except.ok ["lib/a.toit"] = Except.ok ["lib/a.toit"] ∧
    ((watcherWatch Except.ok filepathDir (fun _ => some "permission denied")
        (fun _ => some "permission denied") newWatcherState ["lib/a.toit"])
      = watcherWatch Except.ok filepathDir (fun _ => none) (fun _ => none)
          newWatcherState ["lib/a.toit"] ∧
    (watcherWatch Except.ok filepathDir (fun _ => some "permission denied")
        (fun _ => some "permission denied") newWatcherState ["lib/a.toit"]).err
      = none ∧
    updateWatcher envFailingAdd false false newWatcherState "main.toit"
      = updateWatcher
          { envFailingAdd with osAdd := fun _ => none, osRemove := fun _ => none }
          false false newWatcherState "main.toit") :=
  ⟨rfl, registration_errors_best_effort Except.ok filepathDir
    (fun _ => some "permission denied") (fun _ => some "permission denied")
    newWatcherState ["lib/a.toit"] ["lib/a.toit"] envFailingAdd false false
    "main.toit" rfl⟩

/-- State owned by the select loop in onWatchChanges: the debounce flag
fired, the generation counter (generation 0 is started before the loop;
each accepted edit allocates the next one), and whether the loop has
returned. -/
structure LoopState where
  fired : Bool
  gen : Nat
  shutdown : Bool
deriving Repr, DecidableEq

/-- Events the select statement can receive: a filesystem event with its
path and whether the Write bit of its Op is set, closure of the events
channel, a tick of the 100ms debounce ticker, a delivery on the error
channel, closure of the error channel, and cancellation of the outer
context. -/
inductive LoopEvent where
  | fsEvent (name : String) (isWrite : Bool)
  | eventsClosed
  | tick
  | watchErr (msg : String)
  | errorsClosed
  | ctxDone
deriving Repr, DecidableEq

/-- Observable actions of the loop body: the two prints, cancelling the
scope of generation g, and starting generation g's updateWatcher
goroutine (startProbe) and runOnDevice goroutine (startRun). -/
inductive LoopAction where
  | printModified (name : String)
  | printWatchError (msg : String)
  | cancel (g : Nat)
  | startProbe (g : Nat)
  | startRun (g : Nat)
deriving Repr, DecidableEq

/-- One iteration of the select loop, given the current contents of
watcher.paths (read from the shared watcher; treated as fixed while one
event is handled).  An accepted write prints, cancels the previous
generation's scope, starts the next generation's probe and run under the
fresh scope, sets fired and resets the ticker (the reset only changes
when future tick events arrive, which are inputs here). -/
def loopStep (wpaths : List String) (s : LoopState) :
    LoopEvent → LoopState × List LoopAction
  | .fsEvent name isWrite =>
    if name ∉ wpaths then (s, [])
    else if isWrite then
      if !s.fired then
        ({ fired := true, gen := s.gen + 1, shutdown := s.shutdown },
         [.printModified name, .cancel s.gen,
          .startProbe (s.gen + 1), .startRun (s.gen + 1)])
      else (s, [])
    else (s, [])
  | .eventsClosed => ({ s with shutdown := true }, [])
  | .tick => ({ s with fired := false }, [])
  | .watchErr m => (s, [.printWatchError m])
  | .errorsClosed => ({ s with shutdown := true }, [])
  | .ctxDone => ({ s with shutdown := true }, [])

/-- Runs the select loop over a list of delivered events; once the loop
has returned (shutdown) no further event is processed. -/
def loopRun (wpaths : List String) (s : LoopState) :
    List LoopEvent → LoopState × List LoopAction
  | [] => (s, [])
  | e :: es =>
    if s.shutdown then (s, [])
    else
      let (s1, as1) := loopStep wpaths s e
      let (s2, as2) := loopRun wpaths s1 es
      (s2, as1 ++ as2)

/-- Loop state on entry: debounce flag clear, generation 0 current. -/
def loopInit : LoopState := { fired := false, gen := 0, shutdown := false }

/-- Actions of onWatchChanges before the loop starts: generation 0's
probe goroutine and the initial synchronous run. -/
def startupActions : List LoopAction :=
  [LoopAction.startProbe 0, LoopAction.startRun 0]

/-- Complete action trace of onWatchChanges for a delivered event list. -/
def watchTrace (wpaths : List String) (es : List LoopEvent) : List LoopAction :=
  startupActions ++ (loopRun wpaths loopInit es).2

/-- Number of run tasks started in an action list, used to count how many
generations a stretch of the loop triggers. -/
def runStarts (as : List LoopAction) : Nat :=
  as.countP fun a => match a with
    | LoopAction.startRun _ => true
    | _ => false

theorem runStarts_append (as bs : List LoopAction) :
    runStarts (as ++ bs) = runStarts as + runStarts bs :=
  List.countP_append _ _ _

/-- Helper for the coalescing claim: while the debounce flag is set, any
event stretch containing no ticker tick starts no run task and leaves the
flag set. -/
theorem loopRun_no_trigger_when_fired (wpaths : List String)
    (es : List LoopEvent) (s : LoopState)
    (hf : s.fired = true) (hmid : LoopEvent.tick ∉ es) :
    runStarts (loopRun wpaths s es).2 = 0 ∧
      (loopRun wpaths s es).1.fired = true := by
  induction es generalizing s with
  | nil => exact ⟨rfl, hf⟩
  | cons e rest ih =>
    have hmid' : LoopEvent.tick ∉ rest := fun hr => hmid (List.mem_cons_of_mem _ hr)
    by_cases hsd : s.shutdown
    · simp only [loopRun, if_pos hsd]
      exact ⟨rfl, hf⟩
    · simp only [loopRun, if_neg hsd]
      cases e with
      | fsEvent name isWrite =>
        by_cases hw : name ∉ wpaths
        · rcases ih s hf hmid' with ⟨h1, h2⟩
          simp only [loopStep, if_pos hw, runStarts_append]
          exact ⟨by rw [h1]; rfl, h2⟩
        · cases isWrite with
          | true =>
            have : (!s.fired) = false := by rw [hf]; rfl
            simp only [loopStep, if_neg hw, if_pos rfl, this, Bool.false_eq_true,
              if_false, if_true]
            rcases ih s hf hmid' with ⟨h1, h2⟩
            rw [runStarts_append]
            exact ⟨by rw [h1]; rfl, h2⟩
          | false =>
            simp only [loopStep, if_neg hw, Bool.false_eq_true, if_false]
            rcases ih s hf hmid' with ⟨h1, h2⟩
            rw [runStarts_append]
            exact ⟨by rw [h1]; rfl, h2⟩
      | eventsClosed =>
        rcases ih { s with shutdown := true } hf hmid' with ⟨h1, h2⟩
        simp only [loopStep, runStarts_append]
        exact ⟨by rw [h1]; rfl, h2⟩
      | tick => exact absurd (List.mem_cons_self _ _) hmid
      | watchErr m =>
        rcases ih s hf hmid' with ⟨h1, h2⟩
        simp only [loopStep, runStarts_append]
        exact ⟨by rw [h1]; rfl, h2⟩
      | errorsClosed =>
        rcases ih { s with shutdown := true } hf hmid' with ⟨h1, h2⟩
        simp only [loopStep, runStarts_append]
        exact ⟨by rw [h1]; rfl, h2⟩
      | ctxDone =>
        rcases ih { s with shutdown := true } hf hmid' with ⟨h1, h2⟩
        simp only [loopStep, runStarts_append]
        exact ⟨by rw [h1]; rfl, h2⟩

/-- C3: from a state with the debounce window closed, a write to a
relevant path, followed by any events among which no debounce tick
occurs, followed by a second write to the same path, trigger exactly one
generation: the first write starts the single probe/run pair and every
further write inside the open window is coalesced. -/
theorem debounce_coalesces (wpaths : List String) (s : LoopState)
    (p : String) (mid : List LoopEvent)
    (hp : p ∈ wpaths) (hf : s.fired = false) (hs : s.shutdown = false)
    (hmid : LoopEvent.tick ∉ mid) :
    runStarts (loopRun wpaths s
        (LoopEvent.fsEvent p true :: (mid ++ [LoopEvent.fsEvent p true]))).2
      = 1 := by
  have hnotin : ¬ p ∉ wpaths := fun hc => hc hp
  have hfired : (!s.fired) = true := by rw [hf]; rfl
  have hnsd : ¬ s.shutdown = true := by rw [hs]; exact Bool.false_ne_true
  have hstep : loopStep wpaths s (LoopEvent.fsEvent p true)
      = ({ fired := true, gen := s.gen + 1, shutdown := s.shutdown },
         [LoopAction.printModified p, LoopAction.cancel s.gen,
          LoopAction.startProbe (s.gen + 1), LoopAction.startRun (s.gen + 1)]) := by
    simp only [loopStep, if_neg hnotin, hfired, if_pos rfl, if_true]
  have hmid' : LoopEvent.tick ∉ mid ++ [LoopEvent.fsEvent p true] := by
    intro hc
    rcases List.mem_append.mp hc with hc | hc
    · exact hmid hc
    · simp at hc
  have hrest := loopRun_no_trigger_when_fired wpaths
    (mid ++ [LoopEvent.fsEvent p true])
    { fired := true, gen := s.gen + 1, shutdown := s.shutdown } rfl hmid'
  simp only [loopRun, if_neg hnsd, hstep]
  rw [runStarts_append, hrest.1]
  rfl

theorem debounce_coalesces_witness :
    "main.toit" ∈ ["main.toit"] ∧ loopInit.fired = false ∧
    loopInit.shutdown = false ∧ LoopEvent.tick ∉ ([] : List LoopEvent) ∧
    runStarts (loopRun ["main.toit"] loopInit
        (LoopEvent.fsEvent "main.toit" true
          :: ([] ++ [LoopEvent.fsEvent "main.toit" true]))).2 = 1 :=
  ⟨by decide, rfl, rfl, by decide,
    debounce_coalesces ["main.toit"] loopInit "main.toit" []
      (by decide) rfl rfl (by decide)⟩

/-- Ordering property of an action trace: every start of generation g+1's
run task is preceded, strictly earlier in the trace, by the cancellation
request for generation g's scope. -/
def cancelBeforeStart (t : List LoopAction) : Prop :=
  ∀ i g, t.get? i = some (LoopAction.startRun (g + 1)) →
    ∃ j, j < i ∧ t.get? j = some (LoopAction.cancel g)

theorem cancelBeforeStart_append_no_run (t as : List LoopAction)
    (ht : cancelBeforeStart t)
    (has : ∀ g, LoopAction.startRun g ∉ as) :
    cancelBeforeStart (t ++ as) := by
  intro i g h
  by_cases hi : i < t.length
  · rw [List.get?_append hi] at h
    rcases ht i g h with ⟨j, hj, hjt⟩
    exact ⟨j, hj, by rw [List.get?_append (hj.trans hi)]; exact hjt⟩
  · rw [List.get?_append_right (le_of_not_lt hi)] at h
    have : LoopAction.startRun (g + 1) ∈ as := by
      exact List.get?_mem h
    exact absurd this (has (g + 1))

theorem cancelBeforeStart_append_block (t : List LoopAction) (g0 : Nat)
    (nm : String) (ht : cancelBeforeStart t) :
    cancelBeforeStart (t ++
      [LoopAction.printModified nm, LoopAction.cancel g0,
       LoopAction.startProbe (g0 + 1), LoopAction.startRun (g0 + 1)]) := by
  intro i g h
  by_cases hi : i < t.length
  · rw [List.get?_append hi] at h
    rcases ht i g h with ⟨j, hj, hjt⟩
    exact ⟨j, hj, by rw [List.get?_append (hj.trans hi)]; exact hjt⟩
  · rw [List.get?_append_right (le_of_not_lt hi)] at h
    have hlen : i - t.length < 4 := by
      by_contra hge
      have h4 : 4 ≤ i - t.length := le_of_not_lt hge
      rw [List.get?_eq_none.mpr (by simpa using h4)] at h
      exact Option.noConfusion h
    have hg : i - t.length = 3 ∧ g = g0 := by
      interval_cases hk : (i - t.length) <;> simp_all
    refine ⟨t.length + 1, ?_, ?_⟩
    · omega
    · rw [List.get?_append_right (by omega)]
      have : t.length + 1 - t.length = 1 := by omega
      rw [this, hg.2]
      rfl

/-- Helper: one loop iteration extends a trace satisfying the ordering
property to a longer trace still satisfying it. -/
theorem cancelBeforeStart_step (wpaths : List String) (s : LoopState)
    (e : LoopEvent) (t : List LoopAction) (ht : cancelBeforeStart t) :
    cancelBeforeStart (t ++ (loopStep wpaths s e).2) := by
  cases e with
  | fsEvent name isWrite =>
    by_cases hw : name ∉ wpaths
    · simp only [loopStep, if_pos hw]
      exact cancelBeforeStart_append_no_run t [] ht (by simp)
    · cases isWrite with
      | true =>
        cases hftest : s.fired with
        | false =>
          have hfired : (!s.fired) = true := by rw [hftest]; rfl
          simp only [loopStep, if_neg hw, if_pos rfl, hfired, if_true]
          exact cancelBeforeStart_append_block t s.gen name ht
        | true =>
          have hfired : (!s.fired) = false := by rw [hftest]; rfl
          simp only [loopStep, if_neg hw, if_pos rfl, hfired, Bool.false_eq_true,
            if_false]
          exact cancelBeforeStart_append_no_run t [] ht (by simp)
      | false =>
        simp only [loopStep, if_neg hw, Bool.false_eq_true, if_false]
        exact cancelBeforeStart_append_no_run t [] ht (by simp)
  | eventsClosed => exact cancelBeforeStart_append_no_run t [] ht (by simp)
  | tick => exact cancelBeforeStart_append_no_run t [] ht (by simp)
  | watchErr m =>
    exact cancelBeforeStart_append_no_run t [LoopAction.printWatchError m] ht
      (by simp)
  | errorsClosed => exact cancelBeforeStart_append_no_run t [] ht (by simp)
  | ctxDone => exact cancelBeforeStart_append_no_run t [] ht (by simp)

theorem cancelBeforeStart_loopRun (wpaths : List String) (es : List LoopEvent)
    (s : LoopState) (t : List LoopAction) (ht : cancelBeforeStart t) :
    cancelBeforeStart (t ++ (loopRun wpaths s es).2) := by
  induction es generalizing s t with
  | nil => simpa [loopRun]
  | cons e rest ih =>
    by_cases hsd : s.shutdown = true
    · simp only [loopRun, if_pos hsd]
      simpa using ht
    · simp only [loopRun, if_neg hsd]
      rw [← List.append_assoc]
      exact ih _ _ (cancelBeforeStart_step wpaths s e t ht)

/-- C7: in every trace of the coordinator (startup included), the run
task of generation g+1 starts only strictly after the cancellation of
generation g's scope has been issued; generation 0 is the startup run,
which no edit precedes. -/
theorem generation_cancelled_before_next_start (wpaths : List String)
    (es : List LoopEvent) :
    cancelBeforeStart (watchTrace wpaths es) := by
  unfold watchTrace
  apply cancelBeforeStart_loopRun
  intro i g h
  match i, h with
  | 0, h => exact absurd h (by simp [startupActions])
  | 1, h =>
    exfalso
    have : LoopAction.startRun 0 = LoopAction.startRun (g + 1) := by
      simpa [startupActions] using h
    simp at this
  | (n + 2), h => exact absurd h (by simp [startupActions])

/-- Result of os.Stat on the entrypoint argument of the watch command. -/
inductive StatResult where
  | notExist
  | statError (e : String)
  | isDir
  | isFile
deriving Repr, DecidableEq

/-- Environment of one invocation of the watch command's RunE: outcomes
of each external step, in source order. -/
structure CmdEnv where
  assetsPath : Except String String
  stat : String → StatResult
  deviceFlag : Except String Unit
  sdk : Except String Unit
  device : Except String Unit
  optLevelChanged : Bool
  optLevel : Except String Int
  fsnotifyNew : Except String Unit

/-- Startup-visible actions of RunE: creating the fsnotify watcher and
entering the watch loop. -/
inductive StartupAction where
  | createWatcher
  | startWatching
deriving Repr, DecidableEq

/-- RunE body of WatchCmd up to the point where the watch loop runs; the
loop itself is abstracted as the startWatching action followed by the
nil return. -/
def watchCmdRunE (env : CmdEnv) (entrypoint : String) :
    Except String Unit × List StartupAction :=
  match env.assetsPath with
  | .error e => (.error e, [])
  | .ok _ =>
    match env.stat entrypoint with
    | .notExist => (.error ("no such file or directory: " ++ entrypoint), [])
    | .statError e =>
      (.error ("cant stat file " ++ entrypoint ++ ", reason: " ++ e), [])
    | .isDir => (.error ("cant watch directory: " ++ entrypoint), [])
    | .isFile =>
      match env.deviceFlag with
      | .error e => (.error e, [])
      | .ok _ =>
        match env.sdk with
        | .error e => (.error e, [])
        | .ok _ =>
          match env.device with
          | .error e => (.error e, [])
          | .ok _ =>
            match (if env.optLevelChanged then env.optLevel.map (fun _ => ())
              else .ok ()) with
            | .error e => (.error e, [])
            | .ok _ =>
              match env.fsnotifyNew with
              | .error e => (.error e, [])
              | .ok _ =>
                (.ok (), [StartupAction.createWatcher, StartupAction.startWatching])

/-- C9: when the entrypoint does not exist or names a directory, the
watch command's RunE returns an error, no fsnotify watcher is created and
no watching is started. -/
theorem entrypoint_errors_fatal (env : CmdEnv) (e : String)
    (h : env.stat e = StatResult.notExist ∨ env.stat e = StatResult.isDir) :
    (∃ m, (watchCmdRunE env e).1 = .error m) ∧ (watchCmdRunE env e).2 = [] := by
  cases hap : env.assetsPath with
  | error m => exact ⟨⟨m, by simp [watchCmdRunE, hap]⟩, by simp [watchCmdRunE, hap]⟩
  | ok s =>
    rcases h with h | h
    · exact ⟨⟨"no such file or directory: " ++ e, by simp [watchCmdRunE, hap, h]⟩,
        by simp [watchCmdRunE, hap, h]⟩
    · exact ⟨⟨"cant watch directory: " ++ e, by simp [watchCmdRunE, hap, h]⟩,
        by simp [watchCmdRunE, hap, h]⟩

/-- Environment whose stat call reports a missing entrypoint and whose
other collaborators all succeed. -/
def envMissingEntrypoint : CmdEnv :=
  { assetsPath := .ok "", stat := fun _ => StatResult.notExist,
    deviceFlag := .ok (), sdk := .ok (), device := .ok (),
    optLevelChanged := false, optLevel := .ok 1, fsnotifyNew := .ok () }

theorem entrypoint_errors_fatal_witness :
    (envMissingEntrypoint.stat "main.toit" = StatResult.notExist ∨
      envMissingEntrypoint.stat "main.toit" = StatResult.isDir) ∧
    (∃ m, (watchCmdRunE envMissingEntrypoint "main.toit").1 = .error m) ∧
    (watchCmdRunE envMissingEntrypoint "main.toit").2 = [] :=
  ⟨Or.inl rfl, entrypoint_errors_fatal envMissingEntrypoint "main.toit" (Or.inl rfl)⟩

end Jaguar
